import Mathlib

/-!
Shallow embedding of the health-check Prometheus exporter
(`collector/collector.go` plus the `main` entry point).

The collector lists all pods, and for each pod whose first container
declares an HTTPGet liveness probe it issues one HTTP GET against
`scheme://podIP:port/path`, timing the round trip, then emits one gauge
sample named `container_health_check_duration_millisecond` labeled
(namespace, container_name, pod_name).

Modelling choices, each traceable to a line of the Go source:
* The HTTP client is an oracle `client : String → Response` mapping the
  request URL to the observed outcome (`transportErr` models a non-nil
  `err` from `http.Client.Get`; `status` the response status code, which
  the source never reads; `durationNs` the nanosecond count that
  `time.Since(start)` returns when the call succeeds).
* `healthCheck` returns `Except String (List Sample)`: the `.error`
  branch models the Go runtime panic raised by `spec.Containers[0]`
  on an empty container slice; `.ok` carries the samples written to the
  output channel (zero or one).
* `Collect` sequences `healthCheck` over the pod list; a panic in any
  per-pod task aborts the whole scrape, which `mapM` over `Except`
  reproduces.
* Machine integers: `time.Duration` is an `Int64` nanosecond count and
  the metric value is `float64(duration)`; all values involved are tiny
  against both 2^63 and the 2^53 exact-integer range of `float64`, so
  the value is modelled as `Int` with no wrap-around.
* The mutual-exclusion behaviour of `c.mutex` across two concurrent
  `Collect` invocations is modelled as a small-step transition system
  (`CollectStep`) over the phases of the cycle.
-/

namespace Exporter

/-- Kind tag of the Kubernetes `IntOrString` union
(`intstr.Int` / `intstr.String`). -/
inductive IntOrStringKind
  | int
  | str
deriving DecidableEq, Repr

/-- Kubernetes `intstr.IntOrString`: when the kind is `str` (a named
port), the `intVal` field keeps its zero value, exactly as in the Go
struct. -/
structure IntOrString where
  kind : IntOrStringKind
  intVal : Int
  strVal : String
deriving DecidableEq, Repr

/-- `intstr.FromInt`: a numeric port. -/
def IntOrString.fromInt (v : Int) : IntOrString :=
  ⟨IntOrStringKind.int, v, ""⟩

/-- `intstr.FromString`: a named port; `intVal` stays `0`. -/
def IntOrString.fromString (v : String) : IntOrString :=
  ⟨IntOrStringKind.str, 0, v⟩

/-- `coreV1.HTTPGetAction`: path, port and scheme of an HTTPGet liveness
probe. The scheme is the raw string of the `URIScheme` field
(`"HTTP"`, `"HTTPS"`, or empty when unset). -/
structure HTTPGetAction where
  path : String
  port : IntOrString
  scheme : String
deriving DecidableEq, Repr

/-- `coreV1.Probe`, restricted to the only field the collector reads. -/
structure Probe where
  httpGet : Option HTTPGetAction
deriving DecidableEq, Repr

/-- `coreV1.Container`, restricted to the only field the collector
reads. -/
structure Container where
  livenessProbe : Option Probe
deriving DecidableEq, Repr

/-- A pod record as the collector sees it: `meta.Namespace`,
`meta.Name`, `meta.Labels`, `status.PodIP` and `spec.Containers`. -/
structure Pod where
  ns : String
  name : String
  labels : List (String × String)
  podIP : String
  containers : List Container
deriving DecidableEq, Repr

/-- Outcome of one `httpClient.Get`: `transportErr` models `err != nil`
(timeout, connection refused, any transport failure), `status` the
response status code, `durationNs` the nanoseconds elapsed when the
response returned. -/
structure Response where
  transportErr : Bool
  status : Nat
  durationNs : Nat
deriving DecidableEq, Repr

/-- One emitted metric sample: label values in source order
(namespace, container_name, pod_name) and the gauge value passed to
`MustNewConstMetric`. -/
structure Sample where
  ns : String
  containerName : String
  podName : String
  value : Int
deriving DecidableEq, Repr

/-- Go map indexing `labels["app"]`: the zero value `""` when the key is
absent. -/
def lookupLabel (labels : List (String × String)) (key : String) : String :=
  match labels.find? (fun kv => kv.1 == key) with
  | some kv => kv.2
  | none => ""

/-- The scheme selection of `healthCheck`:
`if coreV1.URISchemeHTTP == httpGet.Scheme { "http://" } else
{ "https://" }`, where `URISchemeHTTP = "HTTP"`. -/
def urlScheme (scheme : String) : String :=
  if scheme = "HTTP" then "http://" else "https://"

/-- The URL handed to `httpClient.Get`:
`scheme + podIP + ":" + strconv.Itoa(int(httpGet.Port.IntVal)) +
httpGet.Path`. -/
def probeURL (podIP : String) (hg : HTTPGetAction) : String :=
  urlScheme hg.scheme ++ podIP ++ ":" ++ toString hg.port.intVal ++ hg.path

/-- One per-pod probe task (`healthCheck` in the source). Reads
`spec.Containers[0].LivenessProbe` — a Go runtime panic when the
container slice is empty, modelled by the `.error` branch — and, when an
HTTPGet probe is declared, issues the GET and emits exactly one sample
whose value is `-1` on transport error and the raw elapsed duration
otherwise. The pod IP is used unconditionally; it is never checked. -/
def healthCheck (client : String → Response) (pod : Pod) :
    Except String (List Sample) :=
  match pod.containers with
  | [] => Except.error "runtime error: index out of range with length 0"
  | c :: _ =>
    match c.livenessProbe with
    | none => Except.ok []
    | some lp =>
      match lp.httpGet with
      | none => Except.ok []
      | some hg =>
        let resp := client (probeURL pod.podIP hg)
        let duration : Int :=
          if resp.transportErr then -1 else (resp.durationNs : Int)
        Except.ok
          [⟨pod.ns, lookupLabel pod.labels "app", pod.name, duration⟩]

/-- One scrape cycle (`Collect` in the source): one `healthCheck` task
per listed pod, all completions awaited (`wg.Wait`) before returning.
Sequencing with `mapM` over `Except` reproduces both the completeness
(every task's samples are in the returned set) and the abort-on-panic
behaviour. -/
def Collect (client : String → Response) (pods : List Pod) :
    Except String (List Sample) :=
  (pods.mapM (healthCheck client)).map List.flatten

/-- The probe action the collector would use for a pod: the `HTTPGet`
field of the first container's liveness probe, `none` when no such
probe is declared (or no first container exists). -/
def firstHTTPGet (pod : Pod) : Option HTTPGetAction :=
  match pod.containers with
  | [] => none
  | c :: _ =>
    match c.livenessProbe with
    | none => none
    | some lp => lp.httpGet

/-- Whether the collector probes this pod: its first container declares
an HTTPGet liveness probe. -/
def hasHTTPGetProbe (pod : Pod) : Bool :=
  (firstHTTPGet pod).isSome

/-- The one sample `healthCheck` emits for a probed pod. -/
def sampleOf (client : String → Response) (pod : Pod)
    (hg : HTTPGetAction) : Sample :=
  let resp := client (probeURL pod.podIP hg)
  ⟨pod.ns, lookupLabel pod.labels "app", pod.name,
    if resp.transportErr then -1 else (resp.durationNs : Int)⟩

/-- The samples a single pod contributes to a completed cycle. -/
def podSamples (client : String → Response) (pod : Pod) : List Sample :=
  match firstHTTPGet pod with
  | none => []
  | some hg => [sampleOf client pod hg]

/-- The URL a pod's probe task requests, `""` for unprobed pods. -/
def podURL (pod : Pod) : String :=
  match firstHTTPGet pod with
  | none => ""
  | some hg => probeURL pod.podIP hg

/-! Concrete fixtures used by counterexamples and witnesses, taken from
the spec's own test scenarios. -/

/-- Scenario pod: `ns=default, name=a, ip=10.0.0.1,
probe=http:8080/healthz, labels (app : svcA)`. -/
def podA : Pod :=
  ⟨"default", "a", [("app", "svcA")], "10.0.0.1",
    [⟨some ⟨some ⟨"/healthz", IntOrString.fromInt 8080, "HTTP"⟩⟩⟩]⟩

/-- A pod record with an empty container slice. -/
def podNoContainers : Pod := ⟨"default", "b", [], "10.0.0.2", []⟩

/-- A pod with an HTTPGet liveness probe but no assigned pod IP. -/
def podNoIP : Pod :=
  ⟨"default", "c", [("app", "svcC")], "",
    [⟨some ⟨some ⟨"/healthz", IntOrString.fromInt 8080, "HTTP"⟩⟩⟩]⟩

/-- A pod whose liveness probe declares its port by name. -/
def podNamedPort : Pod :=
  ⟨"default", "d", [("app", "svcD")], "10.0.0.3",
    [⟨some ⟨some ⟨"/healthz", IntOrString.fromString "health", "HTTP"⟩⟩⟩]⟩

/-- An HTTP client in which every GET succeeds with status 200 after a
round trip of 5 milliseconds = 5000000 nanoseconds. -/
def clientOk5ms : String → Response := fun _ => ⟨false, 200, 5000000⟩

/-- An HTTP client in which every GET fails at the transport level. -/
def clientRefused : String → Response := fun _ => ⟨true, 0, 0⟩

/-! The concurrency protocol of `Collect`: two invocations on one
collector instance contend for `c.mutex`. Each invocation moves through
the phases of the source in order — `c.mutex.Lock()`, the pod-list
fetch, the probe fan-out whose samples are written to the channel, then
the deferred `c.mutex.Unlock()`, which also runs on the fatal
(`panic`) exit path of a failed fetch. -/

/-- Phases of one `Collect` invocation. -/
inductive CollectPhase
  | idle
  | waiting
  | fetching
  | writing
  | done
deriving DecidableEq, Repr

/-- Scheduler state for two concurrent invocations of `Collect` on one
collector instance: who holds `c.mutex`, and each invocation's phase. -/
structure SchedState where
  owner : Option Bool
  pc : Bool → CollectPhase

/-- Update one invocation's program counter. -/
def setPC (pc : Bool → CollectPhase) (t : Bool) (ph : CollectPhase) :
    Bool → CollectPhase :=
  fun u => if u = t then ph else pc u

/-- Interleaving semantics of two `Collect` invocations. `lock` can fire
only when nobody holds the mutex; `fetchFatal` is the fatal-error exit
of the pod-list fetch, on which the deferred unlock still releases the
mutex. -/
inductive CollectStep : SchedState → SchedState → Prop
  | arrive (s : SchedState) (t : Bool) :
      s.pc t = CollectPhase.idle →
      CollectStep s ⟨s.owner, setPC s.pc t CollectPhase.waiting⟩
  | lock (s : SchedState) (t : Bool) :
      s.pc t = CollectPhase.waiting → s.owner = none →
      CollectStep s ⟨some t, setPC s.pc t CollectPhase.fetching⟩
  | fetched (s : SchedState) (t : Bool) :
      s.pc t = CollectPhase.fetching →
      CollectStep s ⟨s.owner, setPC s.pc t CollectPhase.writing⟩
  | fetchFatal (s : SchedState) (t : Bool) :
      s.pc t = CollectPhase.fetching →
      CollectStep s ⟨none, setPC s.pc t CollectPhase.done⟩
  | finish (s : SchedState) (t : Bool) :
      s.pc t = CollectPhase.writing →
      CollectStep s ⟨none, setPC s.pc t CollectPhase.done⟩

/-- Both invocations idle, mutex free. -/
def startState : SchedState := ⟨none, fun _ => CollectPhase.idle⟩

/-- States reachable from the start state. -/
def SchedReachable (s : SchedState) : Prop :=
  Relation.ReflTransGen CollectStep startState s

/-- An invocation is inside its critical section: fetching the pod list
or writing samples. -/
def inCycle (ph : CollectPhase) : Prop :=
  ph = CollectPhase.fetching ∨ ph = CollectPhase.writing

/-- Whoever is inside the cycle holds the mutex. -/
def mutexInv (s : SchedState) : Prop :=
  ∀ t : Bool, inCycle (s.pc t) → s.owner = some t

/-- A reachable state in which invocation `false` holds the mutex and is
fetching while invocation `true` is still idle. -/
def lockedState : SchedState :=
  ⟨some false,
    setPC (setPC (fun _ => CollectPhase.idle) false CollectPhase.waiting)
      false CollectPhase.fetching⟩

/-! Structural lemmas about `healthCheck` and `Collect`. -/

lemma healthCheck_eq_podSamples (client : String → Response) (pod : Pod)
    (h : pod.containers ≠ []) :
    healthCheck client pod = Except.ok (podSamples client pod) := by
  obtain ⟨c, cs, hcc⟩ : ∃ c cs, pod.containers = c :: cs := by
    cases hcc : pod.containers with
    | nil => exact absurd hcc h
    | cons c cs => exact ⟨c, cs, rfl⟩
  simp only [healthCheck, podSamples, firstHTTPGet, sampleOf, hcc]
  cases hlp : c.livenessProbe with
  | none => simp only [hlp]
  | some lp =>
    cases hhg : lp.httpGet with
    | none => simp only [hlp, hhg]
    | some hg => simp only [hlp, hhg]

lemma healthCheck_ok_inv (client : String → Response) (pod : Pod)
    (s : List Sample) (h : healthCheck client pod = Except.ok s) :
    pod.containers ≠ [] ∧ s = podSamples client pod := by
  cases hc : pod.containers with
  | nil =>
    rw [healthCheck, hc] at h
    exact absurd h (by simp)
  | cons c cs =>
    have hne : pod.containers ≠ [] := by rw [hc]; simp
    rw [healthCheck_eq_podSamples client pod hne] at h
    refine ⟨by simp, ?_⟩
    exact (Except.ok.inj h).symm

lemma mapM_healthCheck_ok (client : String → Response) (pods : List Pod)
    (h : ∀ p ∈ pods, p.containers ≠ []) :
    pods.mapM (healthCheck client) =
      Except.ok (pods.map (podSamples client)) := by
  induction pods with
  | nil => rfl
  | cons p t ih =>
    have hp := h p (by simp)
    have ht : ∀ q ∈ t, q.containers ≠ [] := fun q hq => h q (by simp [hq])
    rw [List.mapM_cons, healthCheck_eq_podSamples client p hp, ih ht]
    rfl

lemma mapM_healthCheck_ok_inv (client : String → Response) :
    ∀ (pods : List Pod) (res : List (List Sample)),
      pods.mapM (healthCheck client) = Except.ok res →
      (∀ p ∈ pods, p.containers ≠ []) ∧
        res = pods.map (podSamples client) := by
  intro pods
  induction pods with
  | nil =>
    intro res h
    refine ⟨by simp, ?_⟩
    simpa using (Except.ok.inj h).symm
  | cons p t ih =>
    intro res h
    rw [List.mapM_cons] at h
    cases hp : healthCheck client p with
    | error e => rw [hp] at h; exact Except.noConfusion h
    | ok s =>
      rw [hp] at h
      cases ht : t.mapM (healthCheck client) with
      | error e =>
        rw [ht] at h
        exact Except.noConfusion h
      | ok ss =>
        rw [ht] at h
        obtain ⟨hne, hs⟩ := healthCheck_ok_inv client p s hp
        obtain ⟨hall, hss⟩ := ih ss ht
        have hres : res = s :: ss := by
          have : (Except.ok (s :: ss) : Except String (List (List Sample)))
              = Except.ok res := h
          exact (Except.ok.inj this).symm
        subst hres hs hss
        refine ⟨?_, by simp⟩
        intro q hq
        rcases List.mem_cons.mp hq with hq | hq
        · exact hq ▸ hne
        · exact hall q hq

lemma Collect_ok (client : String → Response) (pods : List Pod)
    (h : ∀ p ∈ pods, p.containers ≠ []) :
    Collect client pods =
      Except.ok ((pods.map (podSamples client)).flatten) := by
  rw [Collect, mapM_healthCheck_ok client pods h]
  rfl

lemma Collect_ok_inv (client : String → Response) (pods : List Pod)
    (out : List Sample) (h : Collect client pods = Except.ok out) :
    (∀ p ∈ pods, p.containers ≠ []) ∧
      out = (pods.map (podSamples client)).flatten := by
  rw [Collect] at h
  cases hm : pods.mapM (healthCheck client) with
  | error e => rw [hm] at h; exact absurd h (by simp [Except.map])
  | ok res =>
    rw [hm] at h
    obtain ⟨hall, hres⟩ := mapM_healthCheck_ok_inv client pods res hm
    have : res.flatten = out := by
      simpa [Except.map] using h
    exact ⟨hall, by rw [← this, hres]⟩

lemma podSamples_length (client : String → Response) (pod : Pod) :
    (podSamples client pod).length =
      (if hasHTTPGetProbe pod then 1 else 0) := by
  rw [podSamples, hasHTTPGetProbe]
  cases firstHTTPGet pod with
  | none => rfl
  | some hg => rfl

lemma flatten_podSamples_length (client : String → Response)
    (pods : List Pod) :
    ((pods.map (podSamples client)).flatten).length =
      pods.countP (fun p => hasHTTPGetProbe p) := by
  induction pods with
  | nil => rfl
  | cons p t ih =>
    simp only [List.map_cons, List.flatten_cons, List.length_append, ih,
      List.countP_cons, podSamples_length]
    cases hasHTTPGetProbe p <;> simp [Nat.add_comm]

lemma filter_eq_singleton_of_uniq {l : List Pod} {f : Pod → Bool} {a : Pod}
    (ha : a ∈ l) (hfa : f a = true)
    (huniq : ∀ b ∈ l, f b = true → b = a) (hnd : l.Nodup) :
    l.filter f = [a] := by
  induction l with
  | nil => cases ha
  | cons c t ih =>
    have hndt : t.Nodup := (List.nodup_cons.mp hnd).2
    rcases List.mem_cons.mp ha with rfl | hat
    · rw [List.filter_cons_of_pos hfa]
      have ht : t.filter f = [] := by
        rw [List.filter_eq_nil_iff]
        intro b hb hfb
        have : b = a := huniq b (List.mem_cons_of_mem _ hb) hfb
        exact (List.nodup_cons.mp hnd).1 (this ▸ hb)
      rw [ht]
    · have hfc : ¬ f c = true := by
        intro hfc
        have : c = a := huniq c (List.mem_cons_self _ _) hfc
        exact (List.nodup_cons.mp hnd).1 (this ▸ hat)
      rw [List.filter_cons_of_neg hfc]
      exact ih hat (fun b hb hfb => huniq b (List.mem_cons_of_mem _ hb) hfb)
        hndt

/-! Invariant proofs for the concurrency protocol. -/

lemma mutexInv_start : mutexInv startState := by
  intro t h
  rcases h with h | h <;> exact absurd h (by simp [startState])

lemma mutexInv_step {s s' : SchedState} (hs : mutexInv s)
    (hstep : CollectStep s s') : mutexInv s' := by
  cases hstep with
  | arrive t ht =>
    intro u hu
    by_cases hut : u = t
    · subst hut
      simp only [setPC, if_pos rfl] at hu
      rcases hu with hu | hu <;> exact absurd hu (by simp)
    · simp only [setPC, if_neg hut] at hu
      exact hs u hu
  | lock t ht hown =>
    intro u hu
    by_cases hut : u = t
    · subst hut; rfl
    · simp only [setPC, if_neg hut] at hu
      have hcon := hs u hu
      rw [hown] at hcon
      exact absurd hcon (by simp)
  | fetched t ht =>
    intro u hu
    by_cases hut : u = t
    · subst hut
      exact hs u (Or.inl ht)
    · simp only [setPC, if_neg hut] at hu
      exact hs u hu
  | fetchFatal t ht =>
    intro u hu
    by_cases hut : u = t
    · subst hut
      simp only [setPC, if_pos rfl] at hu
      rcases hu with hu | hu <;> exact absurd hu (by simp)
    · simp only [setPC, if_neg hut] at hu
      have hu' := hs u hu
      have htown := hs t (Or.inl ht)
      rw [hu'] at htown
      exact absurd (Option.some.inj htown) (fun hh => hut hh)
  | finish t ht =>
    intro u hu
    by_cases hut : u = t
    · subst hut
      simp only [setPC, if_pos rfl] at hu
      rcases hu with hu | hu <;> exact absurd hu (by simp)
    · simp only [setPC, if_neg hut] at hu
      have hu' := hs u hu
      have htown := hs t (Or.inr ht)
      rw [hu'] at htown
      exact absurd (Option.some.inj htown) (fun hh => hut hh)

lemma mutexInv_reachable {s : SchedState} (h : SchedReachable s) :
    mutexInv s := by
  induction h with
  | refl => exact mutexInv_start
  | tail hr hstep ih => exact mutexInv_step ih hstep

/-! The claims. -/

/-- C1: the claim says the emitted value on probe success is the round
trip in milliseconds. The code computes `float64(duration)` on a
`time.Duration`, i.e. the raw nanosecond count: a successful 5 ms probe
yields the value 5000000, not 5, contradicting the metric's own name
`container_health_check_duration_millisecond` and help string. The
failure half of the claim holds: a transport error yields exactly -1. -/
theorem C1_value_is_raw_nanosecond_count :
    Collect clientOk5ms [podA] =
      Except.ok [⟨"default", "svcA", "a", 5000000⟩] ∧
    Collect clientRefused [podA] =
      Except.ok [⟨"default", "svcA", "a", -1⟩] :=
  ⟨rfl, rfl⟩

/-- C2 counterexample: a liveness probe whose scheme field is unset
(empty string) is probed over "https://", not "http://" as the claim
states. -/
theorem C2_counterexample_empty_scheme :
    probeURL "10.0.0.1" ⟨"/healthz", IntOrString.fromInt 8080, ""⟩ =
      "https://10.0.0.1:8080/healthz" := rfl

/-- C2 (amended): the derived scheme is "http://" exactly when the probe
declares the scheme "HTTP"; every other value of the field — "HTTPS",
unset/empty, or anything else — yields "https://". -/
theorem C2_scheme_http_iff (hg : HTTPGetAction) :
    (urlScheme hg.scheme = "http://" ∨ urlScheme hg.scheme = "https://") ∧
    (urlScheme hg.scheme = "http://" ↔ hg.scheme = "HTTP") := by
  constructor
  · by_cases h : hg.scheme = "HTTP"
    · exact Or.inl (by simp [urlScheme, h])
    · exact Or.inr (by simp [urlScheme, h])
  · constructor
    · intro h
      by_contra hne
      rw [urlScheme, if_neg hne] at h
      exact absurd h (by decide)
    · intro h
      simp [urlScheme, h]

/-- C3 counterexample: with a pod whose container list is empty in the
enumerated list, the cycle is not a silent skip — the unchecked
`spec.Containers[0]` access aborts the whole collection (Go panic), and
the other pod's sample is lost with it. -/
theorem C3_counterexample_panic_aborts :
    Collect clientOk5ms [podA, podNoContainers] =
      Except.error "runtime error: index out of range with length 0" := rfl

/-- C3 (amended): a pod record with no first container is not skipped:
its probe task hits an index-out-of-range runtime error, and the whole
collection cycle aborts instead of returning a sample set. -/
theorem C3_no_first_container_aborts (client : String → Response)
    (pods : List Pod) (pod : Pod) (h1 : pod ∈ pods)
    (h2 : pod.containers = []) :
    healthCheck client pod =
      Except.error "runtime error: index out of range with length 0" ∧
    (Collect client pods).isOk = false := by
  constructor
  · simp only [healthCheck, h2]
  · cases hc : Collect client pods with
    | error e => rfl
    | ok out =>
      obtain ⟨hall, -⟩ := Collect_ok_inv client pods out hc
      exact absurd h2 (hall pod h1)

/-- Witness for C3 (amended) at the concrete two-pod list. -/
theorem C3_no_first_container_aborts_w :
    healthCheck clientOk5ms podNoContainers =
      Except.error "runtime error: index out of range with length 0" ∧
    (Collect clientOk5ms [podA, podNoContainers]).isOk = false :=
  C3_no_first_container_aborts clientOk5ms [podA, podNoContainers]
    podNoContainers (by decide) rfl

/-- C4 counterexample: a pod with an HTTPGet liveness probe and an empty
pod IP is not skipped: the cycle emits one sample for it (here with the
sentinel value, the GET against the empty host having failed), not zero
samples as the claim states. -/
theorem C4_counterexample_no_ip_probed :
    Collect clientRefused [podNoIP] =
      Except.ok [⟨"default", "svcC", "c", -1⟩] := rfl

/-- C4 (amended): the pod IP is never checked: a pod whose first
container declares an HTTPGet probe but whose IP is empty is still
probed, against the URL built from the empty host, and contributes
exactly one sample. -/
theorem C4_no_ip_still_one_sample (client : String → Response) (pod : Pod)
    (hg : HTTPGetAction) (hhg : firstHTTPGet pod = some hg)
    (hip : pod.podIP = "") :
    probeURL pod.podIP hg =
      urlScheme hg.scheme ++ "" ++ ":" ++ toString hg.port.intVal ++
        hg.path ∧
    healthCheck client pod = Except.ok [sampleOf client pod hg] := by
  have hne : pod.containers ≠ [] := by
    intro hc
    rw [firstHTTPGet.eq_def, hc] at hhg
    exact Option.noConfusion hhg
  constructor
  · simp only [probeURL, hip]
  · rw [healthCheck_eq_podSamples client pod hne]
    simp only [podSamples, hhg]

/-- Witness for C4 (amended) at the concrete IP-less pod. -/
theorem C4_no_ip_still_one_sample_w :
    probeURL "" ⟨"/healthz", IntOrString.fromInt 8080, "HTTP"⟩ =
      "http://:8080/healthz" ∧
    healthCheck clientRefused podNoIP =
      Except.ok [⟨"default", "svcC", "c", -1⟩] :=
  C4_no_ip_still_one_sample clientRefused podNoIP
    ⟨"/healthz", IntOrString.fromInt 8080, "HTTP"⟩ rfl rfl

/-- C5: on a pod list in which every record has a first container (every
Kubernetes pod does), the cycle completes and returns exactly the
concatenation of the per-pod samples; the returned sample count equals
the number of pods with an HTTPGet liveness probe, and each such pod
contributes exactly one sample, whatever its probe's outcome. That the
returned value already contains every sample is the embedding of
"collect returns only after all samples are written" (`wg.Wait`). -/
theorem C5_exactly_one_sample_per_probed_pod (client : String → Response)
    (pods : List Pod) (hall : ∀ p ∈ pods, p.containers ≠ []) :
    Collect client pods =
      Except.ok ((pods.map (podSamples client)).flatten) ∧
    ((pods.map (podSamples client)).flatten).length =
      pods.countP (fun p => hasHTTPGetProbe p) ∧
    ∀ p ∈ pods, hasHTTPGetProbe p = true →
      (podSamples client p).length = 1 := by
  refine ⟨Collect_ok client pods hall,
    flatten_podSamples_length client pods, ?_⟩
  intro p hp hprobe
  rw [podSamples_length, hprobe]
  rfl

/-- Witness for C5 on the one-pod scenario list. -/
theorem C5_exactly_one_sample_per_probed_pod_w :
    Collect clientOk5ms [podA] =
      Except.ok (([podA].map (podSamples clientOk5ms)).flatten) ∧
    (([podA].map (podSamples clientOk5ms)).flatten).length =
      [podA].countP (fun p => hasHTTPGetProbe p) :=
  ⟨(C5_exactly_one_sample_per_probed_pod clientOk5ms [podA] (by decide)).1,
    (C5_exactly_one_sample_per_probed_pod clientOk5ms [podA] (by decide)).2.1⟩

/-- C6: a pod whose first container lacks an HTTPGet liveness probe
contributes no sample, and — when pod identities (namespace, name) are
pairwise distinct, as in any live cluster — every emitted sample's
(namespace, app-label, pod name) labels match exactly one pod record of
the cycle, counted over the enumerated list. -/
theorem C6_sample_traces_to_unique_pod (client : String → Response)
    (pods : List Pod) (out : List Sample)
    (hok : Collect client pods = Except.ok out)
    (hid : pods.Pairwise (fun p q => p.ns ≠ q.ns ∨ p.name ≠ q.name)) :
    (∀ p ∈ pods, hasHTTPGetProbe p = false → podSamples client p = []) ∧
    ∀ s ∈ out,
      (pods.filter (fun p => hasHTTPGetProbe p && (p.ns == s.ns) &&
        (lookupLabel p.labels "app" == s.containerName) &&
        (p.name == s.podName))).length = 1 := by
  obtain ⟨hall, hout⟩ := Collect_ok_inv client pods out hok
  constructor
  · intro p hp hnop
    rw [podSamples.eq_def]
    cases hfg : firstHTTPGet p with
    | none => rfl
    | some hg =>
      rw [hasHTTPGetProbe, hfg] at hnop
      exact absurd hnop (by simp)
  · intro s hs
    subst hout
    rw [List.mem_flatten] at hs
    obtain ⟨l, hl, hsl⟩ := hs
    rw [List.mem_map] at hl
    obtain ⟨p, hp, hlp⟩ := hl
    subst hlp
    rw [podSamples.eq_def] at hsl
    cases hfg : firstHTTPGet p with
    | none => rw [hfg] at hsl; cases hsl
    | some hg =>
      rw [hfg] at hsl
      have hseq : s = sampleOf client p hg := by
        rcases List.mem_singleton.mp hsl with h
        exact h
      have hprobe : hasHTTPGetProbe p = true := by
        rw [hasHTTPGetProbe, hfg]; rfl
      have hfields : s.ns = p.ns ∧
          s.containerName = lookupLabel p.labels "app" ∧
          s.podName = p.name := by
        subst hseq
        exact ⟨rfl, rfl, rfl⟩
      have hnd : pods.Nodup := by
        refine hid.imp ?_
        intro a b hab
        intro heq
        subst heq
        rcases hab with h | h <;> exact h rfl
      have hfilter := filter_eq_singleton_of_uniq (l := pods)
        (f := fun p => hasHTTPGetProbe p && (p.ns == s.ns) &&
          (lookupLabel p.labels "app" == s.containerName) &&
          (p.name == s.podName)) (a := p) hp ?_ ?_ hnd
      · rw [hfilter]
        rfl
      · simp only [hprobe, hfields.1, hfields.2.1, hfields.2.2,
          Bool.and_self, beq_self_eq_true, Bool.and_true, Bool.true_and]
      · intro b hb hfb
        simp only [Bool.and_eq_true, beq_iff_eq] at hfb
        obtain ⟨⟨⟨hbp, hbn⟩, hbc⟩, hbname⟩ := hfb
        by_contra hbne
        have := hid.forall ?_ hb hp hbne
        · rcases this with h | h
          · exact h (by rw [hbn, hfields.1])
          · exact h (by rw [hbname, hfields.2.2])
        · intro x y hxy
          rcases hxy with h | h
          · exact Or.inl (fun he => h he.symm)
          · exact Or.inr (fun he => h he.symm)

/-- Witness for C6: on the one-pod scenario cycle, the emitted sample's
labels match exactly one pod of the list. -/
theorem C6_sample_traces_to_unique_pod_w :
    ([podA].filter (fun p => hasHTTPGetProbe p && (p.ns == "default") &&
      (lookupLabel p.labels "app" == "svcA") && (p.name == "a"))).length
      = 1 :=
  (C6_sample_traces_to_unique_pod clientOk5ms [podA]
      [⟨"default", "svcA", "a", 5000000⟩] rfl (by simp)).2
    ⟨"default", "svcA", "a", 5000000⟩ (by simp)

/-- C7: for a probed pod, a transport-level failure yields the one
sample with sentinel value -1 under exactly the same (namespace,
container_name, pod_name) labels a success would carry; and each pod's
task depends only on the client's behaviour at that pod's own URL, so
one pod's failure cannot change any other pod's sample (nor abort the
cycle, the failing task still returning its sample normally). -/
theorem C7_failure_is_sentinel_and_isolated (rFail rOk : Response)
    (pod : Pod) (hg : HTTPGetAction) (hhg : firstHTTPGet pod = some hg)
    (hfail : rFail.transportErr = true) (hok : rOk.transportErr = false) :
    healthCheck (fun _ => rFail) pod =
      Except.ok [⟨pod.ns, lookupLabel pod.labels "app", pod.name, -1⟩] ∧
    healthCheck (fun _ => rOk) pod =
      Except.ok [⟨pod.ns, lookupLabel pod.labels "app", pod.name,
        (rOk.durationNs : Int)⟩] ∧
    ∀ (cl1 cl2 : String → Response) (q : Pod),
      cl1 (podURL q) = cl2 (podURL q) →
      healthCheck cl1 q = healthCheck cl2 q := by
  have hne : pod.containers ≠ [] := by
    intro hc
    rw [firstHTTPGet.eq_def, hc] at hhg
    exact Option.noConfusion hhg
  refine ⟨?_, ?_, ?_⟩
  · rw [healthCheck_eq_podSamples _ pod hne]
    simp only [podSamples, hhg, sampleOf, hfail]
    rfl
  · rw [healthCheck_eq_podSamples _ pod hne]
    simp only [podSamples, hhg, sampleOf, hok]
    rfl
  · intro cl1 cl2 q hagree
    cases hqc : q.containers with
    | nil => simp only [healthCheck, hqc]
    | cons c cs =>
      cases hlp : c.livenessProbe with
      | none => simp only [healthCheck, hqc, hlp]
      | some lp =>
        cases hhg2 : lp.httpGet with
        | none => simp only [healthCheck, hqc, hlp, hhg2]
        | some hg2 =>
          have hfq : firstHTTPGet q = some hg2 := by
            simp only [firstHTTPGet, hqc, hlp, hhg2]
          have hurl : podURL q = probeURL q.podIP hg2 := by
            simp only [podURL, hfq]
          rw [hurl] at hagree
          simp only [healthCheck, hqc, hlp, hhg2, hagree]

/-- Witness for C7 on the scenario pod: failure sample -1 and success
sample 7 ns carry identical labels. -/
theorem C7_failure_is_sentinel_and_isolated_w :
    healthCheck (fun _ => (⟨true, 0, 0⟩ : Response)) podA =
      Except.ok [⟨"default", "svcA", "a", -1⟩] ∧
    healthCheck (fun _ => (⟨false, 200, 7⟩ : Response)) podA =
      Except.ok [⟨"default", "svcA", "a", 7⟩] :=
  ⟨(C7_failure_is_sentinel_and_isolated ⟨true, 0, 0⟩ ⟨false, 200, 7⟩ podA
      ⟨"/healthz", IntOrString.fromInt 8080, "HTTP"⟩ rfl rfl rfl).1,
    (C7_failure_is_sentinel_and_isolated ⟨true, 0, 0⟩ ⟨false, 200, 7⟩ podA
      ⟨"/healthz", IntOrString.fromInt 8080, "HTTP"⟩ rfl rfl rfl).2.1⟩

/-- C8: any response that arrives without transport error yields the
sample with the non-negative elapsed duration as its value, and the
response's status code is never consulted: replacing the status by any
other number leaves the task's result literally unchanged. -/
theorem C8_status_never_inspected (r : Response) (pod : Pod)
    (hg : HTTPGetAction) (hhg : firstHTTPGet pod = some hg)
    (hok : r.transportErr = false) :
    healthCheck (fun _ => r) pod =
      Except.ok [⟨pod.ns, lookupLabel pod.labels "app", pod.name,
        (r.durationNs : Int)⟩] ∧
    (0 : Int) ≤ (r.durationNs : Int) ∧
    ∀ status2 : Nat,
      healthCheck
          (fun _ => (⟨r.transportErr, status2, r.durationNs⟩ : Response))
          pod =
        healthCheck (fun _ => r) pod := by
  have hne : pod.containers ≠ [] := by
    intro hc
    rw [firstHTTPGet.eq_def, hc] at hhg
    exact Option.noConfusion hhg
  refine ⟨?_, Int.natCast_nonneg r.durationNs, fun status2 => rfl⟩
  rw [healthCheck_eq_podSamples _ pod hne]
  simp only [podSamples, hhg, sampleOf, hok]
  rfl

/-- Witness for C8: a 404 response yields the duration sample, and
changing the status to 500 changes nothing. -/
theorem C8_status_never_inspected_w :
    healthCheck (fun _ => (⟨false, 404, 7⟩ : Response)) podA =
      Except.ok [⟨"default", "svcA", "a", 7⟩] ∧
    healthCheck (fun _ => (⟨false, 500, 7⟩ : Response)) podA =
      healthCheck (fun _ => (⟨false, 404, 7⟩ : Response)) podA :=
  ⟨(C8_status_never_inspected ⟨false, 404, 7⟩ podA
      ⟨"/healthz", IntOrString.fromInt 8080, "HTTP"⟩ rfl rfl).1,
    (C8_status_never_inspected ⟨false, 404, 7⟩ podA
      ⟨"/healthz", IntOrString.fromInt 8080, "HTTP"⟩ rfl rfl).2.2 500⟩

/-- C9: in every reachable interleaving of two `Collect` invocations on
one collector instance, the two are never simultaneously inside their
cluster-fetch or sample-writing phases: whoever is inside holds
`c.mutex`, which the second invocation's `lock` step cannot take until
the first has released it — also on the fatal-error exit path, where
the deferred unlock runs. -/
theorem C9_cycles_never_interleave (s : SchedState)
    (h : SchedReachable s) :
    ¬ (inCycle (s.pc false) ∧ inCycle (s.pc true)) := by
  rintro ⟨h0, h1⟩
  have hinv := mutexInv_reachable h
  have e0 := hinv false h0
  have e1 := hinv true h1
  rw [e0] at e1
  exact Bool.noConfusion (Option.some.inj e1)

/-- Witness for C9 at a concrete reachable state: invocation `false`
has locked and is fetching, invocation `true` is not in its cycle. -/
theorem C9_cycles_never_interleave_w :
    ¬ (inCycle (lockedState.pc false) ∧ inCycle (lockedState.pc true)) :=
  C9_cycles_never_interleave lockedState
    (Relation.ReflTransGen.tail
      (Relation.ReflTransGen.tail Relation.ReflTransGen.refl
        (CollectStep.arrive startState false rfl))
      (CollectStep.lock _ false rfl rfl))

/-- C10: a liveness probe declaring its port by name leaves the Go
`IntOrString`'s `IntVal` at 0, so the probe is still launched and its
GET targets `scheme://podIP:0/path`; the task still emits its one
sample. -/
theorem C10_named_port_probed_at_port_zero (client : String → Response)
    (pod : Pod) (path scheme portName : String)
    (hhg : firstHTTPGet pod =
      some ⟨path, IntOrString.fromString portName, scheme⟩) :
    probeURL pod.podIP ⟨path, IntOrString.fromString portName, scheme⟩ =
      urlScheme scheme ++ pod.podIP ++ ":" ++ "0" ++ path ∧
    healthCheck client pod =
      Except.ok [sampleOf client pod
        ⟨path, IntOrString.fromString portName, scheme⟩] := by
  have hne : pod.containers ≠ [] := by
    intro hc
    rw [firstHTTPGet.eq_def, hc] at hhg
    exact Option.noConfusion hhg
  constructor
  · rfl
  · rw [healthCheck_eq_podSamples client pod hne]
    simp only [podSamples, hhg]

/-- Witness for C10 at a concrete named-port pod: the GET goes to
port 0 and one sentinel sample is emitted. -/
theorem C10_named_port_probed_at_port_zero_w :
    probeURL "10.0.0.3"
        ⟨"/healthz", IntOrString.fromString "health", "HTTP"⟩ =
      "http://10.0.0.3:0/healthz" ∧
    healthCheck clientRefused podNamedPort =
      Except.ok [⟨"default", "svcD", "d", -1⟩] :=
  C10_named_port_probed_at_port_zero clientRefused podNamedPort
    "/healthz" "HTTP" "health" rfl

end Exporter
